import Mathlib

/-!
Shallow embedding of the territory-management-tools transformation core:
the `Tm2Context` destination context (tm2-context.ts), the `Tm1Context`
source context (tm1-context.ts), the `SfdxFalconModel` lifecycle base class
(documented in the repository README), and the `Tm1Analysis` model
(tm1-analysis.ts).  File I/O is externalized: parse results arrive as
function arguments.  Exceptions thrown by mutating methods are modelled by
returning the post-mutation state together with an optional error, so that
partial mutation before a throw is observable, exactly as it is on the
in-memory objects in the source.
-/

namespace TmTools

/-- Error kinds thrown by the embedded code.  Each constructor carries the
error *name* used at the corresponding `throw new SfdxFalconError(...)` site
(or the JavaScript runtime error that the statement would produce). -/
inductive Err where
  /-- `CsvParsingError` thrown by `Tm2Context.updateRecordMaps`. -/
  | csvParsingError
  /-- `CsvFileEmpty` thrown by `Tm2Context.updateRecordMaps` on a zero-record extract. -/
  | csvFileEmpty
  /-- `DeveloperNameNotFound` thrown by `Tm2Context.lookupTerritory2Id`. -/
  | developerNameNotFound
  /-- `TypeError` thrown by various argument validations. -/
  | typeError
  /-- `ObjectNotPrepared` thrown by `Tm2Context.isPrepared`. -/
  | objectNotPrepared
  /-- `ObjectNotUpdated` thrown by `Tm2Context.isUpdated`. -/
  | objectNotUpdated
  /-- `RecordBuildError` thrown by the two association-record builders. -/
  | recordBuildError
  /-- `BuildError` thrown by `SfdxFalconModel.build`. -/
  | buildError
  /-- `LoadingError` thrown by `SfdxFalconModel.load`. -/
  | loadingError
  /-- `RefreshError` thrown by `SfdxFalconModel.refresh` when the model is not ready. -/
  | refreshError
  /-- `ModelNotReady` thrown by `SfdxFalconModel.isReady`. -/
  | modelNotReady
  /-- the literal placeholder `ERROR_NAME` error unconditionally thrown at the end
  of `SfdxFalconModel.refresh`. -/
  | errorName
  /-- JavaScript runtime TypeError raised by `for...of` over a non-iterable value. -/
  | notIterable
  /-- JavaScript runtime TypeError raised by calling a method that does not exist
  on the object (`this.<name> is not a function`). -/
  | undefinedIsNotAFunction (name : String)
  /-- `Xml2JsonParsingError` thrown by `Tm1Context.parseSharingRulesFromXml`. -/
  | xml2JsonParsingError
  /-- `ContextNotPrepared` thrown by `Tm1Context.contextIsPrepared`. -/
  | contextNotPrepared
  /-- `AnalysisNotPrepared`: the error the commented-out `Tm1Analysis.checkPrepared`
  would throw if it existed. -/
  | analysisNotPrepared
deriving DecidableEq, Repr

/-- Model of a JavaScript `Map` with string keys (and of plain JSON rows):
an association list whose keys stay unique under `set`.  `set` replaces the
value in place when the key is present (as `Map.prototype.set` does) and
appends otherwise; `get` returns the binding for the key, `none` standing
for `undefined`. -/
def JsMap (α : Type) : Type := List (String × α)

instance (α : Type) [DecidableEq α] : DecidableEq (JsMap α) :=
  inferInstanceAs (DecidableEq (List (String × α)))

instance (α : Type) [Repr α] : Repr (JsMap α) :=
  inferInstanceAs (Repr (List (String × α)))

/-- `m.get(k)` of a JS `Map` (also property access `row[k]` on a JSON row,
where an absent key reads as `undefined`, modelled as `none`). -/
def JsMap.get {α : Type} : JsMap α → String → Option α
  | [], _ => none
  | p :: t, k => if p.1 = k then some p.2 else JsMap.get t k

/-- `m.set(k, v)`: replace the existing binding for `k` in place, else append. -/
def JsMap.set {α : Type} : JsMap α → String → α → JsMap α
  | [], k, v => [(k, v)]
  | p :: t, k, v => if p.1 = k then (k, v) :: t else p :: JsMap.set t k v

/-- `m.values()` of a JS `Map`, in insertion order. -/
def JsMap.values {α : Type} (m : JsMap α) : List α :=
  m.map Prod.snd

/-- JavaScript `s.startsWith(marker)`, computed on the character sequence. -/
def jsStartsWith (s marker : String) : Bool :=
  marker.data.isPrefixOf s.data

/-- JavaScript `s.substring(start)` (with `start` within bounds), computed on
the character sequence. -/
def jsSubstringFrom (s : String) (start : Nat) : String :=
  String.mk (s.data.drop start)

/-! ## Tm2Context (src/modules/tm-tools-objects/tm2-context.ts)

The destination ("Territory Management 2.0") context.  Record fields carry
the exact names used by the source (`Id`, `DeveloperName`,
`territory2DevName`, ...).  A CSV field that may be absent or empty in the
file is a `String` whose empty value plays the role of a missing/falsy
value, matching the truthiness tests in the source. -/

/-- One record of the Territory2 destination extract (only the fields the
context reads: `Id` and `DeveloperName`). -/
structure Territory2Record where
  Id : String
  DeveloperName : String
deriving DecidableEq, Repr

/-- One row of the `tm1-to-tm2-devname-map.csv` mapping table.  The two
`...Id` fields start out empty and are filled in by `updateRecordMaps`. -/
structure TerritoryDevNameMapping where
  territoryId : String
  territory2DevName : String
  territory2ParentDevName : String
  territory2Id : String
  territory2ParentId : String
deriving DecidableEq, Repr

/-- In-memory state of a `Tm2Context` instance (the private members of the
class). -/
structure Tm2Context where
  objectTerritory2AssociationRecords : List (JsMap String)
  territory2Records : List Territory2Record
  territory2RecordsByDevName : JsMap Territory2Record
  territory2RecordsById : JsMap Territory2Record
  territoryDevNameMapByT2DevName : JsMap TerritoryDevNameMapping
  territoryDevNameMapByT2Id : JsMap TerritoryDevNameMapping
  territoryDevNameMappings : List TerritoryDevNameMapping
  userTerritory2AssociationRecords : List (JsMap String)
  prepared : Bool
  loaded : Bool
  updated : Bool
deriving DecidableEq, Repr

/-- the private `Tm2Context` constructor: empty maps and arrays, all state
flags `false`. -/
def Tm2Context.init : Tm2Context where
  objectTerritory2AssociationRecords := []
  territory2Records := []
  territory2RecordsByDevName := []
  territory2RecordsById := []
  territoryDevNameMapByT2DevName := []
  territoryDevNameMapByT2Id := []
  territoryDevNameMappings := []
  userTerritory2AssociationRecords := []
  prepared := false
  loaded := false
  updated := false

/-- `Tm2Context.lookupTerritory2Id`: validates that the Developer Name is a
non-empty string (`TypeError` otherwise), then resolves it through the
`_territory2RecordsByDevName` map, throwing `DeveloperNameNotFound` when no
record matches. -/
def Tm2Context.lookupTerritory2Id (ctx : Tm2Context) (territory2DevName : String) :
    Except Err String :=
  if territory2DevName = "" then
    .error .typeError
  else
    match ctx.territory2RecordsByDevName.get territory2DevName with
    | none => .error .developerNameNotFound
    | some territory2Record => .ok territory2Record.Id

/-- `Tm2Context.getConvertedT2Id`: returns the empty string when the input
does not start with `T2ID_PENDING_`; otherwise strips the 13-character
placeholder marker (`substring(13)`) and resolves the remaining Developer
Name via `lookupTerritory2Id`. -/
def Tm2Context.getConvertedT2Id (ctx : Tm2Context) (pendingT2Id : String) :
    Except Err String :=
  if jsStartsWith pendingT2Id "T2ID_PENDING_" ≠ true then
    .ok ""
  else
    ctx.lookupTerritory2Id (jsSubstringFrom pendingT2Id 13)

/-- `Tm2Context.transformPendingT2Id`: transforms one association row.
Faithful to the source down to its letter-case slip: the guard reads the
capitalised field `data.Territory2Id` (and additionally compares the
*lower-case* `data.territory2Id` against `null`/`''`), and the resolved ID
is assigned to the lower-case key `territory2Id`, leaving the capitalised
`Territory2Id` field untouched. -/
def Tm2Context.transformPendingT2Id (ctx : Tm2Context) (data : JsMap String) :
    Except Err (JsMap String) :=
  if ctx.updated ≠ true then
    .error .objectNotUpdated
  else
    match data.get "Territory2Id" with
    | none => .error .typeError
    | some capitalT2Id =>
      if data.get "territory2Id" = some "" then
        .error .typeError
      else
        match ctx.getConvertedT2Id capitalT2Id with
        | .error e => .error e
        | .ok t2Id =>
          if t2Id ≠ "" then
            .ok (data.set "territory2Id" t2Id)
          else
            .ok data

/-- `Tm2Context.buildT2RecordsByDevNameMap`: inserts every parsed Territory2
record into the by-DeveloperName map (which is *not* cleared first). -/
def Tm2Context.buildT2RecordsByDevNameMap (ctx : Tm2Context) : Tm2Context :=
  { ctx with
    territory2RecordsByDevName :=
      ctx.territory2Records.foldl
        (fun m territory2Record => m.set territory2Record.DeveloperName territory2Record)
        ctx.territory2RecordsByDevName }

/-- `Tm2Context.buildT2RecordsByIdMap`: same, keyed by `Id`. -/
def Tm2Context.buildT2RecordsByIdMap (ctx : Tm2Context) : Tm2Context :=
  { ctx with
    territory2RecordsById :=
      ctx.territory2Records.foldl
        (fun m territory2Record => m.set territory2Record.Id territory2Record)
        ctx.territory2RecordsById }

/-- `Tm2Context.buildTerritoryDevNameMapByT2DevName`. -/
def Tm2Context.buildTerritoryDevNameMapByT2DevName (ctx : Tm2Context) : Tm2Context :=
  { ctx with
    territoryDevNameMapByT2DevName :=
      ctx.territoryDevNameMappings.foldl
        (fun m territoryDevNameMapping =>
          m.set territoryDevNameMapping.territory2DevName territoryDevNameMapping)
        ctx.territoryDevNameMapByT2DevName }

/-- `Tm2Context.buildTerritoryDevNameMapByT2Id`: only mappings whose
`territory2Id` already starts with the Territory2 record-ID marker `0MI`
are indexed. -/
def Tm2Context.buildTerritoryDevNameMapByT2Id (ctx : Tm2Context) : Tm2Context :=
  { ctx with
    territoryDevNameMapByT2Id :=
      ctx.territoryDevNameMappings.foldl
        (fun m territoryDevNameMapping =>
          if jsStartsWith territoryDevNameMapping.territory2Id "0MI" then
            m.set territoryDevNameMapping.territory2Id territoryDevNameMapping
          else m)
        ctx.territoryDevNameMapByT2Id }

/-- the `for (const territoryDevNameMapping of this._territoryDevNameMappings)`
loop inside `updateRecordMaps`.  Each row object is mutated in place; an
error thrown by `lookupTerritory2Id` aborts the loop, leaving the rows
already visited mutated and the remaining rows untouched.  The returned
list is the post-loop content of `_territoryDevNameMappings` and the
optional error is the exception escaping the loop. -/
def Tm2Context.resolveMappingsLoop (ctx : Tm2Context) :
    List TerritoryDevNameMapping → List TerritoryDevNameMapping × Option Err
  | [] => ([], none)
  | territoryDevNameMapping :: rest =>
    match ctx.lookupTerritory2Id territoryDevNameMapping.territory2DevName with
    | .error e => (territoryDevNameMapping :: rest, some e)
    | .ok t2Id =>
      let m1 := { territoryDevNameMapping with territory2Id := t2Id }
      if territoryDevNameMapping.territory2ParentDevName ≠ "" then
        match ctx.lookupTerritory2Id territoryDevNameMapping.territory2ParentDevName with
        | .error e => (m1 :: rest, some e)
        | .ok parentT2Id =>
          let m2 := { m1 with territory2ParentId := parentT2Id }
          let tail := Tm2Context.resolveMappingsLoop ctx rest
          (m2 :: tail.1, tail.2)
      else
        let tail := Tm2Context.resolveMappingsLoop ctx rest
        (m1 :: tail.1, tail.2)

/-- `Tm2Context.updateRecordMaps`: re-parses the Territory2 CSV (the parse
result is the argument; a parser rejection is re-thrown as
`CsvParsingError`), fails with `CsvFileEmpty` on a zero-record extract,
rebuilds the two Territory2 indices, resolves every mapping row in place,
rebuilds the by-T2-Id map and finally marks the context `updated`.  The
returned context is the state of the instance when the method returns *or
throws*. -/
def Tm2Context.updateRecordMaps (ctx : Tm2Context)
    (parsedTerritory2Csv : Except Err (List Territory2Record)) :
    Tm2Context × Option Err :=
  match parsedTerritory2Csv with
  | .error _ => (ctx, some .csvParsingError)
  | .ok records =>
    let ctx1 := { ctx with territory2Records := records }
    if records.length = 0 then
      (ctx1, some .csvFileEmpty)
    else
      let ctx2 := ctx1.buildT2RecordsByDevNameMap.buildT2RecordsByIdMap
      let looped := ctx2.resolveMappingsLoop ctx2.territoryDevNameMappings
      let ctx3 := { ctx2 with territoryDevNameMappings := looped.1 }
      match looped.2 with
      | some e => (ctx3, some e)
      | none => ({ ctx3.buildTerritoryDevNameMapByT2Id with updated := true }, none)

/-- `Tm2Context.parseCsvFiles`: the DevName mapping CSV must parse; a failure
to parse the Territory2 CSV (the file may not exist yet) degrades to an
empty record list. -/
def Tm2Context.parseCsvFiles (ctx : Tm2Context)
    (parsedDevNameMapCsv : List TerritoryDevNameMapping)
    (parsedTerritory2Csv : Except Err (List Territory2Record)) : Tm2Context :=
  { ctx with
    territoryDevNameMappings := parsedDevNameMapCsv
    territory2Records :=
      match parsedTerritory2Csv with
      | .ok records => records
      | .error _ => [] }

/-- `Tm2Context.buildRecordMaps`: builds the four lookup maps. -/
def Tm2Context.buildRecordMaps (ctx : Tm2Context) : Tm2Context :=
  ctx.buildTerritoryDevNameMapByT2DevName.buildTerritoryDevNameMapByT2Id.buildT2RecordsByDevNameMap.buildT2RecordsByIdMap

/-- `Tm2Context.prepare`: constructs a context, parses the CSV files and
builds the record maps, then marks the context prepared. -/
def Tm2Context.prepare (parsedDevNameMapCsv : List TerritoryDevNameMapping)
    (parsedTerritory2Csv : Except Err (List Territory2Record)) : Tm2Context :=
  { (Tm2Context.init.parseCsvFiles parsedDevNameMapCsv parsedTerritory2Csv).buildRecordMaps
    with prepared := true }

/-- Modelled from the spec: `csv.transformFile` (module
`sfdx-falcon-util/csv`, not present under `src/`) streams the intermediate
association file row by row, applying the `onRowData` transform to each row;
a row-level exception rejects the whole stream (spec section 4.4,
`BuildAssociationRecords`). -/
def Tm2Context.transformRows (ctx : Tm2Context) :
    List (JsMap String) → Except Err (List (JsMap String))
  | [] => .ok []
  | row :: rest =>
    match ctx.transformPendingT2Id row with
    | .error e => .error e
    | .ok row2 =>
      match Tm2Context.transformRows ctx rest with
      | .error e => .error e
      | .ok rest2 => .ok (row2 :: rest2)

/-- `Tm2Context.buildUserT2AssociationRecords`: one-shot guard
(`RecordBuildError` if UserTerritory2Association records are already in
memory), then streams the intermediate CSV through `transformPendingT2Id`
and stores the result. -/
def Tm2Context.buildUserT2AssociationRecords (ctx : Tm2Context)
    (intermediateRows : List (JsMap String)) : Tm2Context × Option Err :=
  if ctx.userTerritory2AssociationRecords.length ≠ 0 then
    (ctx, some .recordBuildError)
  else
    match ctx.transformRows intermediateRows with
    | .error e => (ctx, some e)
    | .ok rows => ({ ctx with userTerritory2AssociationRecords := rows }, none)

/-- `Tm2Context.buildObjectT2AssociationRecords`: the method currently
consists of the one-shot guard only. -/
def Tm2Context.buildObjectT2AssociationRecords (ctx : Tm2Context) :
    Tm2Context × Option Err :=
  if ctx.objectTerritory2AssociationRecords.length ≠ 0 then
    (ctx, some .recordBuildError)
  else
    (ctx, none)

/-! ## SfdxFalconModel (lifecycle base class, README source listing)

The abstract base class drives derived-class hooks `_build`/`_load`; the
hooks are passed in as functions of type `JsMap String → Except Err Bool`
(the derived implementation either throws, or resolves to a success
boolean).  The public methods return the final state of the instance
together with the error escaping the call, if any. -/

/-- the `ModelState` interface. -/
structure ModelState where
  built : Bool
  loaded : Bool
  failed : Bool
  ready : Bool
  stale : Bool
deriving DecidableEq, Repr

/-- In-memory state of an `SfdxFalconModel` instance. -/
structure SfdxFalconModel where
  trapErrors : Bool
  state : ModelState
  errors : List Err
  buildOpts : JsMap String
  loadOpts : JsMap String
deriving DecidableEq, Repr

/-- the `SfdxFalconModel` constructor: `trapErrors` defaults to `false`,
state flags all start `false`, the error collection is empty and both
cached option objects start as `{}`. -/
def SfdxFalconModel.construct (trapErrors : Option Bool) : SfdxFalconModel where
  trapErrors := trapErrors.getD false
  state := { built := false, loaded := false, failed := false, ready := false, stale := false }
  errors := []
  buildOpts := []
  loadOpts := []

/-- `SfdxFalconModel.build`: throws `BuildError` when the model is already
ready (before any mutation); validates a provided options object
(`TypeValidator.throwOnEmptyNullInvalidObject` rejects an empty object);
caches the options, runs the derived `_build` hook and either records the
ready/built state or records the failure, retaining the (wrapped)
`BuildError` in the error collection and re-throwing it unless
`trapErrors` is set. -/
def SfdxFalconModel.build (m : SfdxFalconModel)
    (buildImpl : JsMap String → Except Err Bool) (opts : Option (JsMap String)) :
    SfdxFalconModel × Option Err :=
  if m.state.ready then
    (m, some .buildError)
  else if opts = some [] then
    (m, some .typeError)
  else
    let o := opts.getD []
    let m1 := { m with buildOpts := o }
    match buildImpl o with
    | .ok true =>
      ({ m1 with state :=
          { built := true, ready := true, loaded := false, failed := false, stale := false } },
        none)
    | .ok false =>
      let m2 := { m1 with
        state := { failed := true, built := false, ready := false, loaded := false, stale := false }
        errors := m1.errors ++ [Err.buildError] }
      (m2, if m1.trapErrors = true then none else some .buildError)
    | .error _ =>
      let m2 := { m1 with
        state := { failed := true, built := false, ready := false, loaded := false, stale := false }
        errors := m1.errors ++ [Err.buildError] }
      (m2, if m1.trapErrors = true then none else some .buildError)

/-- `SfdxFalconModel.load`: mirror image of `build` using the `_load` hook,
the `loaded` flag, the cached `_loadOpts` and the `LoadingError` name. -/
def SfdxFalconModel.load (m : SfdxFalconModel)
    (loadImpl : JsMap String → Except Err Bool) (opts : Option (JsMap String)) :
    SfdxFalconModel × Option Err :=
  if m.state.ready then
    (m, some .loadingError)
  else if opts = some [] then
    (m, some .typeError)
  else
    let o := opts.getD []
    let m1 := { m with loadOpts := o }
    match loadImpl o with
    | .ok true =>
      ({ m1 with state :=
          { loaded := true, ready := true, built := false, failed := false, stale := false } },
        none)
    | .ok false =>
      let m2 := { m1 with
        state := { failed := true, loaded := false, ready := false, built := false, stale := false }
        errors := m1.errors ++ [Err.loadingError] }
      (m2, if m1.trapErrors = true then none else some .loadingError)
    | .error _ =>
      let m2 := { m1 with
        state := { failed := true, loaded := false, ready := false, built := false, stale := false }
        errors := m1.errors ++ [Err.loadingError] }
      (m2, if m1.trapErrors = true then none else some .loadingError)

/-- Outcome of `SfdxFalconModel.refresh`: final instance state, escaping
error, and which derived hooks the call invoked (with which cached
options). -/
structure RefreshOutcome where
  model : SfdxFalconModel
  err : Option Err
  invokedBuild : Option (JsMap String)
  invokedLoad : Option (JsMap String)
deriving DecidableEq, Repr

/-- `SfdxFalconModel.refresh`, transcribed as it stands in the source:
it throws `RefreshError` when the model is not ready; the `built` branch
re-runs `_build` with the cached build options and returns the resulting
state; the `loaded` branch invokes `_load` on the cached load options but
chains only the empty `.then().catch()` (discarding the hook's outcome and
leaving the state untouched) and then falls through to the unconditional
`throw new SfdxFalconError('ERROR_MESSAGE', 'ERROR_NAME', ...)`.  The code
after that throw is unreachable (and references identifiers that are not in
scope there), so it has no effect on behaviour and is not modelled. -/
def SfdxFalconModel.refresh (m : SfdxFalconModel)
    (buildImpl loadImpl : JsMap String → Except Err Bool) : RefreshOutcome :=
  if m.state.ready ≠ true then
    { model := m, err := some .refreshError, invokedBuild := none, invokedLoad := none }
  else if m.state.built then
    match buildImpl m.buildOpts with
    | .ok true =>
      { model := { m with state :=
          { built := true, ready := true, loaded := false, failed := false, stale := false } }
        err := none, invokedBuild := some m.buildOpts, invokedLoad := none }
    | .ok false =>
      { model := { m with
          state := { failed := true, built := false, ready := false, loaded := false, stale := false }
          errors := m.errors ++ [Err.buildError] }
        err := if m.trapErrors = true then none else some .buildError
        invokedBuild := some m.buildOpts, invokedLoad := none }
    | .error _ =>
      { model := { m with
          state := { failed := true, built := false, ready := false, loaded := false, stale := false }
          errors := m.errors ++ [Err.buildError] }
        err := if m.trapErrors = true then none else some .buildError
        invokedBuild := some m.buildOpts, invokedLoad := none }
  else if m.state.loaded then
    { model := m, err := some .errorName, invokedBuild := none, invokedLoad := some m.loadOpts }
  else
    { model := m, err := some .errorName, invokedBuild := none, invokedLoad := none }

/-- `SfdxFalconModel.isReady`: throws `ModelNotReady` unless the ready flag
is strictly `true`. -/
def SfdxFalconModel.isReady (m : SfdxFalconModel) : Except Err Bool :=
  if m.state.ready ≠ true then .error .modelNotReady else .ok m.state.ready

/-! ## Tm1Context: DeveloperName assignment (tm1-context.ts)

Developer Names are modelled as `List Char` (a JavaScript string viewed as
its character sequence), so that `substring(0, n)` is `List.take n` and
string concatenation is `++`.  The numeric suffix appended on collision is
the decimal rendering `Nat.repr` of the counter. -/

/-- One AccountTerritoryAssignmentRule record (fields used by the context). -/
structure AtaRuleRecord where
  Id : String
  Name : String
  TerritoryId : String
deriving DecidableEq, Repr

/-- the `devNameMaxLength` constant of `addAtaRuleDeveloperName`. -/
def devNameMaxLength : Nat := 80

/-- `Tm1Context.matchAtaRuleDeveloperName`: scans the values of the
`_ataRuleDevNamesByRuleId` map for an exact match. -/
def matchAtaRuleDeveloperName (ataRuleDevNamesByRuleId : JsMap (List Char))
    (devNameToMatch : List Char) : Bool :=
  ataRuleDevNamesByRuleId.values.any (fun devName => devName = devNameToMatch)

/-- the collision candidate computed inside the `while` loop:
`baseDevName.substring(0, devNameMaxLength - counterString.length) + counterString`. -/
def suffixedDevName (baseDevName : List Char) (counter : Nat) : List Char :=
  baseDevName.take (devNameMaxLength - (Nat.repr counter).length) ++ (Nat.repr counter).data

/-- the `while (this.matchAtaRuleDeveloperName(newDevName))` loop of
`addAtaRuleDeveloperName`.  The source loop has no bound; `fuel` (one unit
per collision test) is a modelling device for its termination, and `none`
means the fuel ran out before a free name was found. -/
def devNameCollisionLoop (ataRuleDevNamesByRuleId : JsMap (List Char))
    (baseDevName : List Char) : List Char → Nat → Nat → Option (List Char)
  | _, _, 0 => none
  | newDevName, counter, fuel + 1 =>
    if matchAtaRuleDeveloperName ataRuleDevNamesByRuleId newDevName then
      devNameCollisionLoop ataRuleDevNamesByRuleId baseDevName
        (suffixedDevName baseDevName counter) (counter + 1) fuel
    else
      some newDevName

/-- `Tm1Context.addAtaRuleDeveloperName`: derives the base Developer Name
from the rule's display name, resolves collisions with a numeric suffix
starting at 2, and stores the final name in the map keyed by the rule `Id`.

The slug transform `createDeveloperName` lives in module
`sfdx-falcon-util/mdapi`, which is not present under `src/`; it is passed
in as the function argument `createDeveloperName` and constrained in the
theorems by the spec's contract (a deterministic transform to a
Developer-Name-compatible string, hence at most 80 characters). -/
def addAtaRuleDeveloperName (createDeveloperName : String → List Char) (fuel : Nat)
    (ataRuleDevNamesByRuleId : JsMap (List Char)) (ataRuleRecord : AtaRuleRecord) :
    Option (JsMap (List Char)) :=
  let baseDevName := createDeveloperName ataRuleRecord.Name
  match devNameCollisionLoop ataRuleDevNamesByRuleId baseDevName baseDevName 2 fuel with
  | none => none
  | some newDevName => some (ataRuleDevNamesByRuleId.set ataRuleRecord.Id newDevName)

/-- the per-rule `addAtaRuleDeveloperName` calls issued by
`Tm1Context.transformCsvFiles` while it walks `_ataRuleRecords` in order. -/
def addAtaRuleDeveloperNames (createDeveloperName : String → List Char) (fuel : Nat)
    (ataRuleDevNamesByRuleId : JsMap (List Char)) :
    List AtaRuleRecord → Option (JsMap (List Char))
  | [] => some ataRuleDevNamesByRuleId
  | ataRuleRecord :: rest =>
    match addAtaRuleDeveloperName createDeveloperName fuel
        ataRuleDevNamesByRuleId ataRuleRecord with
    | none => none
    | some updated2 => addAtaRuleDeveloperNames createDeveloperName fuel updated2 rest

/-! ## Tm1Context.validate (tm1-context.ts) -/

/-- the `tm1RecordCounts` block of a TM1 Analysis report (JSON numbers). -/
structure TM1RecordCounts where
  territoryRecordCount : Int
  ataRuleRecordCount : Int
  ataRuleItemRecordCount : Int
  userTerritoryRecordCount : Int
  accountShareRecordCount : Int
deriving DecidableEq, Repr

/-- the record arrays of the brand-new `Tm1Context` that `validate` creates
and fills via `parseCsvFiles` from the candidate extraction location. -/
structure Tm1ParsedRecords where
  accountShareRecords : List (JsMap String)
  ataRuleRecords : List AtaRuleRecord
  ataRuleItemRecords : List (JsMap String)
  territoryRecords : List (JsMap String)
  userTerritoryRecords : List (JsMap String)
deriving DecidableEq, Repr

/-- the `status` block of the `TM1ContextValidation` result. -/
structure TM1ValidationStatus where
  territoryExtractionIsValid : Bool
  ataRuleExtractionIsValid : Bool
  ataRuleItemExtractionIsValid : Bool
  userTerritoryExtractionIsValid : Bool
  accountShareExtractionIsValid : Bool
deriving DecidableEq, Repr

/-- the `TM1ContextValidation` result of `Tm1Context.validate` (the
`records` block, which returns the parsed arrays themselves, is represented
by the `records` field; the three `-1`-valued NOT_IMPLEMENTED sharing-rule
counts of the source are omitted as constants with no behaviour). -/
structure TM1ContextValidation where
  records : Tm1ParsedRecords
  expectedRecordCounts : TM1RecordCounts
  actualRecordCounts : TM1RecordCounts
  status : TM1ValidationStatus
deriving DecidableEq, Repr

/-- `Tm1Context.validate`: creates a brand-new `Tm1Context` on the candidate
location, parses it (the parse result is the `freshlyParsed` argument) and
compares each actual record count against the analysis snapshot; each status
flag is the strict equality of its own expected/actual pair. -/
def Tm1Context.validate (tm1AnalysisReport : TM1RecordCounts)
    (freshlyParsed : Tm1ParsedRecords) : TM1ContextValidation where
  records := freshlyParsed
  expectedRecordCounts := tm1AnalysisReport
  actualRecordCounts :=
    { territoryRecordCount := freshlyParsed.territoryRecords.length
      ataRuleRecordCount := freshlyParsed.ataRuleRecords.length
      ataRuleItemRecordCount := freshlyParsed.ataRuleItemRecords.length
      userTerritoryRecordCount := freshlyParsed.userTerritoryRecords.length
      accountShareRecordCount := freshlyParsed.accountShareRecords.length }
  status :=
    { territoryExtractionIsValid :=
        tm1AnalysisReport.territoryRecordCount = (freshlyParsed.territoryRecords.length : Int)
      ataRuleExtractionIsValid :=
        tm1AnalysisReport.ataRuleRecordCount = (freshlyParsed.ataRuleRecords.length : Int)
      ataRuleItemExtractionIsValid :=
        tm1AnalysisReport.ataRuleItemRecordCount = (freshlyParsed.ataRuleItemRecords.length : Int)
      userTerritoryExtractionIsValid :=
        tm1AnalysisReport.userTerritoryRecordCount = (freshlyParsed.userTerritoryRecords.length : Int)
      accountShareExtractionIsValid :=
        tm1AnalysisReport.accountShareRecordCount = (freshlyParsed.accountShareRecords.length : Int) }

/-! ## Tm1Context.parseSharingRulesFromXml (tm1-context.ts)

The method receives the output of the `xml-js` compact conversion
(`alwaysArray: false`), under which an element that occurs once arrives as
a plain object and an element that occurs several times arrives as an
array.  That converted value is modelled by `Jso` below; object fields are
kept in document order (as `xml-js` and `Object.keys` do). -/

/-- a JavaScript value produced by the `xml-js` compact conversion. -/
inductive Jso where
  | str (s : String)
  | num (n : Int)
  | arr (elems : List Jso)
  | obj (fields : List (String × Jso))

/-- property access `value[key]`: `none` is `undefined`.  Property access on
a non-object yields `undefined` (string/array index properties are never
accessed by name in this code path). -/
def Jso.get : Jso → String → Option Jso
  | .obj fields, k => (fields.find? (fun p => p.1 = k)).map Prod.snd
  | _, _ => none

/-- JavaScript truthiness of a possibly-`undefined` value: `undefined`, the
empty string and `0` are falsy; every object and array is truthy. -/
def Jso.truthy : Option Jso → Bool
  | none => false
  | some (.str s) => s ≠ ""
  | some (.num n) => n ≠ 0
  | some (.arr _) => true
  | some (.obj _) => true

/-- `Array.isArray`. -/
def Jso.isArrayValue : Jso → Bool
  | .arr _ => true
  | _ => false

/-- `for...of` over a JavaScript value: arrays iterate their elements,
strings iterate their characters, and any other value raises the runtime
TypeError "`x` is not iterable". -/
def Jso.elementsForOf : Jso → Except Err (List Jso)
  | .arr elems => .ok elems
  | .str s => .ok (s.data.map (fun c => Jso.str (String.mk [c])))
  | _ => .error .notIterable

/-- the local `isTerritoryRelated` predicate: the rule's `sharedTo` or
`sharedFrom` group carries a `territory` or `territoryAndSubordinates`
member. -/
def isTerritoryRelated (sharingRuleToTest : Jso) : Bool :=
  (Jso.truthy (sharingRuleToTest.get "sharedTo") &&
    (Jso.truthy ((sharingRuleToTest.get "sharedTo").bind (fun g => g.get "territory")) ||
     Jso.truthy ((sharingRuleToTest.get "sharedTo").bind
        (fun g => g.get "territoryAndSubordinates"))))
  ||
  (Jso.truthy (sharingRuleToTest.get "sharedFrom") &&
    (Jso.truthy ((sharingRuleToTest.get "sharedFrom").bind (fun g => g.get "territory")) ||
     Jso.truthy ((sharingRuleToTest.get "sharedFrom").bind
        (fun g => g.get "territoryAndSubordinates"))))

/-- a `SharingGroup`: the group type is the first key of the `sharedTo` /
`sharedFrom` object and the members are that entry's `_text`. -/
structure SharingGroup where
  groupType : Option String
  groupMembers : Option Jso

/-- the local `extractSharedFromGroup` helper.  (A `sharedFrom` object with
no keys at all would dereference `undefined` in the source; no converted
document produces one, and it is modelled as an empty group.) -/
def extractSharedFromGroup (sharingRule : Jso) : Option SharingGroup :=
  match sharingRule.get "sharedFrom" with
  | some (.obj []) => some { groupType := none, groupMembers := none }
  | some (.obj ((k, v) :: _)) => some { groupType := some k, groupMembers := v.get "_text" }
  | _ => none

/-- the local `extractSharedToGroup` helper. -/
def extractSharedToGroup (sharingRule : Jso) : Option SharingGroup :=
  match sharingRule.get "sharedTo" with
  | some (.obj []) => some { groupType := none, groupMembers := none }
  | some (.obj ((k, v) :: _)) => some { groupType := some k, groupMembers := v.get "_text" }
  | _ => none

/-- the recurring extraction pattern
`rule[key] ? rule[key]['_text'] : undefined`. -/
def textOf (rule : Jso) (key : String) : Option Jso :=
  if Jso.truthy (rule.get key) then (rule.get key).bind (fun v => v.get "_text") else none

/-- the recurring extraction pattern for the nested `accountSettings` keys:
`(rule['accountSettings'] && rule['accountSettings'][key]) ? rule['accountSettings'][key]['_text'] : undefined`. -/
def accountSettingOf (rule : Jso) (key : String) : Option Jso :=
  if Jso.truthy (rule.get "accountSettings") &&
      Jso.truthy ((rule.get "accountSettings").bind (fun s => s.get key)) then
    ((rule.get "accountSettings").bind (fun s => s.get key)).bind (fun v => v.get "_text")
  else none

/-- the nested `accountSettings` block of an extracted sharing rule. -/
structure AccountSettings where
  caseAccessLevel : Option Jso
  contactAccessLevel : Option Jso
  opportunityAccessLevel : Option Jso

/-- one extracted criteria item (`field`/`operation`/`value`/`valueField`). -/
structure FilterItem where
  field : Option Jso
  operation : Option Jso
  value : Option Jso
  valueField : Option Jso

/-- one extracted CRITERIA-based sharing rule. -/
structure SharingCriteriaRule where
  fullName : Option Jso
  accessLevel : Option Jso
  accountSettings : AccountSettings
  description : Option Jso
  label : Option Jso
  sharedTo : Option SharingGroup
  booleanFilter : Option Jso
  criteriaItems : List FilterItem

/-- one extracted OWNER-based sharing rule; TERRITORY-based rules are
extracted into the identical shape. -/
structure SharingOwnerRule where
  fullName : Option Jso
  accessLevel : Option Jso
  accountSettings : AccountSettings
  description : Option Jso
  label : Option Jso
  sharedFrom : Option SharingGroup
  sharedTo : Option SharingGroup
  booleanFilter : Option Jso

/-- the `SharingRules` collection returned by `parseSharingRulesFromXml`. -/
structure SharingRules where
  sharingCriteriaRules : List SharingCriteriaRule
  sharingOwnerRules : List SharingOwnerRule
  sharingTerritoryRules : List SharingOwnerRule

/-- extraction of one criteria item object. -/
def extractFilterItem (criteriaItemJson : Jso) : FilterItem where
  field := textOf criteriaItemJson "field"
  operation := textOf criteriaItemJson "operation"
  value := textOf criteriaItemJson "value"
  valueField := textOf criteriaItemJson "valueField"

/-- the `criteriaItems` normalization inside the criteria branch: a
non-array value *is* wrapped into a one-element array here (unlike the
rule-collection normalization).  A rule with no `criteriaItems` member
would leave `undefined` in the wrapped array and crash on the member
access `criteriaItemJson['field']`, modelled as a TypeError. -/
def criteriaItemsOf (sharingCriteriaRule : Jso) : Except Err (List Jso) :=
  match sharingCriteriaRule.get "criteriaItems" with
  | some (.arr elems) => .ok elems
  | some single => .ok [single]
  | none => .error .typeError

/-- extraction of one CRITERIA-based rule into the result literal. -/
def extractCriteriaRule (sharingCriteriaRule : Jso) : Except Err SharingCriteriaRule :=
  match criteriaItemsOf sharingCriteriaRule with
  | .error e => .error e
  | .ok itemsJson =>
    .ok
      { fullName := textOf sharingCriteriaRule "fullName"
        accessLevel := textOf sharingCriteriaRule "accessLevel"
        accountSettings :=
          { caseAccessLevel := accountSettingOf sharingCriteriaRule "caseAccessLevel"
            contactAccessLevel := accountSettingOf sharingCriteriaRule "contactAccessLevel"
            opportunityAccessLevel := accountSettingOf sharingCriteriaRule "opportunityAccessLevel" }
        description := textOf sharingCriteriaRule "description"
        label := textOf sharingCriteriaRule "label"
        sharedTo := extractSharedToGroup sharingCriteriaRule
        booleanFilter := textOf sharingCriteriaRule "booleanFilter"
        criteriaItems := itemsJson.map extractFilterItem }

/-- the filtering loop over the criteria-rule collection. -/
def extractFilteredCriteriaRules : List Jso → Except Err (List SharingCriteriaRule)
  | [] => .ok []
  | sharingCriteriaRule :: rest =>
    if isTerritoryRelated sharingCriteriaRule then
      match extractCriteriaRule sharingCriteriaRule with
      | .error e => .error e
      | .ok rule =>
        match extractFilteredCriteriaRules rest with
        | .error e => .error e
        | .ok rules => .ok (rule :: rules)
    else
      extractFilteredCriteriaRules rest

/-- extraction of one OWNER-based (or TERRITORY-based) rule. -/
def extractOwnerRule (sharingOwnerRule : Jso) : SharingOwnerRule where
  fullName := textOf sharingOwnerRule "fullName"
  accessLevel := textOf sharingOwnerRule "accessLevel"
  accountSettings :=
    { caseAccessLevel := accountSettingOf sharingOwnerRule "caseAccessLevel"
      contactAccessLevel := accountSettingOf sharingOwnerRule "contactAccessLevel"
      opportunityAccessLevel := accountSettingOf sharingOwnerRule "opportunityAccessLevel" }
  description := textOf sharingOwnerRule "description"
  label := textOf sharingOwnerRule "label"
  sharedFrom := extractSharedFromGroup sharingOwnerRule
  sharedTo := extractSharedToGroup sharingOwnerRule
  booleanFilter := textOf sharingOwnerRule "booleanFilter"

/-- the CRITERIA branch of `parseSharingRulesFromXml`.  Faithful to the
source slip: the "normalization" for a non-array value re-reads the same
value (`sharingCriteriaRules = sharingRules['sharingCriteriaRules']`)
instead of wrapping it in an array, so a document with exactly one
criteria rule reaches the `for...of` loop as a plain object. -/
def parseSharingCriteriaRulesBranch (sharingRules : Jso) :
    Except Err (List SharingCriteriaRule) :=
  if Jso.truthy (sharingRules.get "sharingCriteriaRules") then
    match sharingRules.get "sharingCriteriaRules" with
    | none => .ok []
    | some sharingCriteriaRules =>
      let normalized :=
        if sharingCriteriaRules.isArrayValue ≠ true then
          (sharingRules.get "sharingCriteriaRules").getD sharingCriteriaRules
        else sharingCriteriaRules
      match normalized.elementsForOf with
      | .error e => .error e
      | .ok rules => extractFilteredCriteriaRules rules
  else .ok []

/-- the OWNER branch of `parseSharingRulesFromXml`: here a non-array value
*is* wrapped (`sharingOwnerRules = [sharingOwnerRules]`). -/
def parseSharingOwnerRulesBranch (sharingRules : Jso) :
    Except Err (List SharingOwnerRule) :=
  if Jso.truthy (sharingRules.get "sharingOwnerRules") then
    match sharingRules.get "sharingOwnerRules" with
    | none => .ok []
    | some sharingOwnerRules =>
      let normalized :=
        if sharingOwnerRules.isArrayValue ≠ true then Jso.arr [sharingOwnerRules]
        else sharingOwnerRules
      match normalized.elementsForOf with
      | .error e => .error e
      | .ok rules => .ok ((rules.filter isTerritoryRelated).map extractOwnerRule)
  else .ok []

/-- the TERRITORY branch of `parseSharingRulesFromXml`: also wraps a
non-array value correctly. -/
def parseSharingTerritoryRulesBranch (sharingRules : Jso) :
    Except Err (List SharingOwnerRule) :=
  if Jso.truthy (sharingRules.get "sharingTerritoryRules") then
    match sharingRules.get "sharingTerritoryRules" with
    | none => .ok []
    | some sharingTerritoryRules =>
      let normalized :=
        if sharingTerritoryRules.isArrayValue ≠ true then Jso.arr [sharingTerritoryRules]
        else sharingTerritoryRules
      match normalized.elementsForOf with
      | .error e => .error e
      | .ok rules => .ok ((rules.filter isTerritoryRelated).map extractOwnerRule)
  else .ok []

/-- `typeof v === 'object'` for a defined value (arrays included). -/
def Jso.typeofIsObject : Jso → Bool
  | .obj _ => true
  | .arr _ => true
  | _ => false

/-- `Tm1Context.parseSharingRulesFromXml`, starting from the `xml-js`
conversion result: focuses on the `SharingRules` key (failing with
`Xml2JsonParsingError` when it is not an object) and runs the three
branches in order, any thrown error aborting the method. -/
def parseSharingRulesFromXml (sharingRulesJson : Jso) : Except Err SharingRules :=
  match sharingRulesJson.get "SharingRules" with
  | none => .error .xml2JsonParsingError
  | some sharingRules =>
    if sharingRules.typeofIsObject ≠ true then
      .error .xml2JsonParsingError
    else
      match parseSharingCriteriaRulesBranch sharingRules with
      | .error e => .error e
      | .ok criteriaRules =>
        match parseSharingOwnerRulesBranch sharingRules with
        | .error e => .error e
        | .ok ownerRules =>
          match parseSharingTerritoryRulesBranch sharingRules with
          | .error e => .error e
          | .ok territoryRules =>
            .ok
              { sharingCriteriaRules := criteriaRules
                sharingOwnerRules := ownerRules
                sharingTerritoryRules := territoryRules }

/-! ## Tm1Analysis (tm1-analysis.ts, src/unnamed/part_000)

The model class for the analysis of a TM1 org.  Its public accessors are
guarded by `this.checkPrepared()`, but the `checkPrepared` method is
commented out of the class body, so the method lookup on the instance
yields `undefined` and the call raises the runtime TypeError
"`this.checkPrepared is not a function`".  The embedding therefore records
which methods exist on the class and routes every accessor's guard through
that method table. -/

/-- the `TM1OrgInfo` block (the source field `alias` is a Lean keyword and
is rendered `alias'`). -/
structure TM1OrgInfo where
  alias' : String
  username : String
  orgId : String
  loginUrl : String
  createdOrgInstance : String
deriving DecidableEq, Repr

/-- a Criteria/Owner/Territory sharing-rule count triple (`SharingRulesCount`). -/
structure SharingRulesCount where
  sharingCriteriaRulesCount : Int
  sharingOwnerRulesCount : Int
  sharingTerritoryRulesCount : Int
deriving DecidableEq, Repr

/-- In-memory state of a `Tm1Analysis` instance.  A member the constructor
leaves uninitialized (it never calls `_initialize`) is an `Option`, with
`none` standing for `undefined`. -/
structure Tm1Analysis where
  accountShareRecordCount : Option Int
  ataRuleRecordCount : Option Int
  ataRuleItemRecordCount : Option Int
  hardTm1DependencyCount : Option Int
  softTm1DependencyCount : Option Int
  accountSharingRulesCount : Option SharingRulesCount
  leadSharingRulesCount : Option SharingRulesCount
  opportunitySharingRulesCount : Option SharingRulesCount
  groupRecordCount : Option Int
  territoryRecordCount : Option Int
  userTerritoryRecordCount : Option Int
  dateAnalyzed : String
  orgInfo : Option TM1OrgInfo
  aliasOrUsername : String
  defaultDelay : Int
  prepared : Bool
deriving DecidableEq, Repr

/-- Names of the methods that are actually defined (not commented out) in
the `Tm1Analysis` class body.  `checkPrepared` and `checkAliasOrUsername`
appear in the file only inside block comments and are therefore absent. -/
def Tm1Analysis.definedMethodNames : List String :=
  ["analyzeAccountShares", "analyzeAtaRuleItems", "analyzeAtaRules", "analyzeGroups",
   "analyzeHardTm1Dependencies", "analyzeSoftTm1Dependencies", "analyzeAccountSharingRules",
   "analyzeLeadSharingRules", "analyzeOpportunitySharingRules", "analyzeTerritories",
   "analyzeUserTerritoryAssignments", "gatherOrgInformation", "generateReport",
   "saveReport", "_initialize"]

/-- the guard expression `this.checkPrepared()` at the head of every
domain-data accessor: method lookup through the class's method table; were
the method present it would throw `AnalysisNotPrepared` on an unprepared
instance, but an absent method makes the call itself a runtime TypeError. -/
def Tm1Analysis.callCheckPrepared (a : Tm1Analysis) : Except Err Unit :=
  if Tm1Analysis.definedMethodNames.contains "checkPrepared" then
    if a.prepared ≠ true then .error .analysisNotPrepared else .ok ()
  else
    .error (.undefinedIsNotAFunction "checkPrepared")

/-- the `Tm1Analysis` constructor: validates the argument types, defaults
`aliasOrUsername` to `''` and `defaultDelay` to `1` (via `||`, so an
explicit `0` also becomes `1`), stamps `dateAnalyzed` with the current
time (a parameter here), stores the file paths, and unconditionally marks
the instance prepared.  It initializes none of the count/org-info members
(`_initialize` is never called). -/
def Tm1Analysis.construct (aliasOrUsername : Option String) (defaultDelay : Option Int)
    (dateNow : String) : Tm1Analysis where
  accountShareRecordCount := none
  ataRuleRecordCount := none
  ataRuleItemRecordCount := none
  hardTm1DependencyCount := none
  softTm1DependencyCount := none
  accountSharingRulesCount := none
  leadSharingRulesCount := none
  opportunitySharingRulesCount := none
  groupRecordCount := none
  territoryRecordCount := none
  userTerritoryRecordCount := none
  dateAnalyzed := dateNow
  orgInfo := none
  aliasOrUsername := (aliasOrUsername.getD "")
  defaultDelay :=
    match defaultDelay with
    | some d => if d = 0 then 1 else d
    | none => 1
  prepared := true

/-- the accessor `get accountShareRecordCount()`. -/
def Tm1Analysis.getAccountShareRecordCount (a : Tm1Analysis) : Except Err (Option Int) :=
  match a.callCheckPrepared with
  | .error e => .error e
  | .ok _ => .ok a.accountShareRecordCount

/-- the accessor `get ataRuleRecordCount()`. -/
def Tm1Analysis.getAtaRuleRecordCount (a : Tm1Analysis) : Except Err (Option Int) :=
  match a.callCheckPrepared with
  | .error e => .error e
  | .ok _ => .ok a.ataRuleRecordCount

/-- the accessor `get ataRuleItemRecordCount()`. -/
def Tm1Analysis.getAtaRuleItemRecordCount (a : Tm1Analysis) : Except Err (Option Int) :=
  match a.callCheckPrepared with
  | .error e => .error e
  | .ok _ => .ok a.ataRuleItemRecordCount

/-- the accessor `get hardTm1DependencyCount()`. -/
def Tm1Analysis.getHardTm1DependencyCount (a : Tm1Analysis) : Except Err (Option Int) :=
  match a.callCheckPrepared with
  | .error e => .error e
  | .ok _ => .ok a.hardTm1DependencyCount

/-- the accessor `get softTm1DependencyCount()`. -/
def Tm1Analysis.getSoftTm1DependencyCount (a : Tm1Analysis) : Except Err (Option Int) :=
  match a.callCheckPrepared with
  | .error e => .error e
  | .ok _ => .ok a.softTm1DependencyCount

/-- the accessor `get dateAnalyzed()`. -/
def Tm1Analysis.getDateAnalyzed (a : Tm1Analysis) : Except Err String :=
  match a.callCheckPrepared with
  | .error e => .error e
  | .ok _ => .ok a.dateAnalyzed

/-- the accessor `get orgInfo()`. -/
def Tm1Analysis.getOrgInfo (a : Tm1Analysis) : Except Err (Option TM1OrgInfo) :=
  match a.callCheckPrepared with
  | .error e => .error e
  | .ok _ => .ok a.orgInfo

/-- the accessor `get aliasOrUsername()`. -/
def Tm1Analysis.getAliasOrUsername (a : Tm1Analysis) : Except Err String :=
  match a.callCheckPrepared with
  | .error e => .error e
  | .ok _ => .ok a.aliasOrUsername

/-- the accessor `get accountSharingRulesCount()`. -/
def Tm1Analysis.getAccountSharingRulesCount (a : Tm1Analysis) :
    Except Err (Option SharingRulesCount) :=
  match a.callCheckPrepared with
  | .error e => .error e
  | .ok _ => .ok a.accountSharingRulesCount

/-- the accessor `get leadSharingRulesCount()`. -/
def Tm1Analysis.getLeadSharingRulesCount (a : Tm1Analysis) :
    Except Err (Option SharingRulesCount) :=
  match a.callCheckPrepared with
  | .error e => .error e
  | .ok _ => .ok a.leadSharingRulesCount

/-- the accessor `get opportunitySharingRulesCount()`. -/
def Tm1Analysis.getOpportunitySharingRulesCount (a : Tm1Analysis) :
    Except Err (Option SharingRulesCount) :=
  match a.callCheckPrepared with
  | .error e => .error e
  | .ok _ => .ok a.opportunitySharingRulesCount

/-- the accessor `get groupRecordCount()`. -/
def Tm1Analysis.getGroupRecordCount (a : Tm1Analysis) : Except Err (Option Int) :=
  match a.callCheckPrepared with
  | .error e => .error e
  | .ok _ => .ok a.groupRecordCount

/-- the accessor `get territoryRecordCount()`. -/
def Tm1Analysis.getTerritoryRecordCount (a : Tm1Analysis) : Except Err (Option Int) :=
  match a.callCheckPrepared with
  | .error e => .error e
  | .ok _ => .ok a.territoryRecordCount

/-- the accessor `get userTerritoryRecordCount()`. -/
def Tm1Analysis.getUserTerritoryRecordCount (a : Tm1Analysis) : Except Err (Option Int) :=
  match a.callCheckPrepared with
  | .error e => .error e
  | .ok _ => .ok a.userTerritoryRecordCount

/-! ## Specification helpers and concrete inputs used by the theorems -/

/-- Specification helper: the record a by-DeveloperName index ends up
holding for a key after inserting a record list in order — the *last*
record of the list carrying that `DeveloperName` (insertion for an existing
key overwrites). -/
def lastRecordWithDevName : List Territory2Record → String → Option Territory2Record
  | [], _ => none
  | r :: rest, k =>
    match lastRecordWithDevName rest k with
    | some r2 => some r2
    | none => if r.DeveloperName = k then some r else none

/-- Specification helper: the destination ID the extract index assigns to a
Developer Name (`dflt` when the name does not occur, a case the theorems
exclude by hypothesis). -/
def extractIndexedId (extract : List Territory2Record) (devName : String) (dflt : String) :
    String :=
  match lastRecordWithDevName extract devName with
  | some r => r.Id
  | none => dflt

/-- Specification helper: a mapping row after a successful
`updateRecordMaps` against `extract`: the destination ID indexed by the
row's Developer Name, and (when a parent Developer Name is present) the ID
indexed by the parent name. -/
def specResolvedRow (extract : List Territory2Record) (m : TerritoryDevNameMapping) :
    TerritoryDevNameMapping :=
  { m with
    territory2Id := extractIndexedId extract m.territory2DevName m.territory2Id
    territory2ParentId :=
      if m.territory2ParentDevName ≠ "" then
        extractIndexedId extract m.territory2ParentDevName m.territory2ParentId
      else m.territory2ParentId }

/-- Concrete destination context exercising `transformPendingT2Id`: prepared
with a single mapping row for `DevB`, then updated against a destination
extract in which `DevB` carries the record ID `D002`. -/
def c1Context : Tm2Context :=
  ((Tm2Context.prepare [⟨"T2", "DevB", "", "", ""⟩] (.ok [])).updateRecordMaps
    (.ok [⟨"D002", "DevB"⟩])).1

/-- Concrete intermediate association row carrying the `T2ID_PENDING_DevB`
placeholder in its `Territory2Id` reference field. -/
def c1PendingRow : JsMap String := [("Territory2Id", "T2ID_PENDING_DevB")]

/-- Concrete prepared destination context with two mapping rows (`DevA`,
`DevB`) and no pre-existing destination records. -/
def c2Context : Tm2Context :=
  Tm2Context.prepare [⟨"T1", "DevA", "", "", ""⟩, ⟨"T2", "DevB", "", "", ""⟩] (.ok [])

/-- Concrete lifecycle model made ready via `load()` with load options
`{path: "x"}`. -/
def c4LoadedModel : SfdxFalconModel :=
  ((SfdxFalconModel.construct none).load (fun _ => .ok true) (some [("path", "x")])).1

/-- Concrete sharing rule referencing a territory group, with nested
criteria items. -/
def c6SingleRule : Jso :=
  .obj [("fullName", .obj [("_text", .str "Rule1")]),
        ("accessLevel", .obj [("_text", .str "Read")]),
        ("sharedTo", .obj [("territory", .obj [("_text", .str "T1")])]),
        ("criteriaItems", .obj [("field", .obj [("_text", .str "Industry")]),
                                ("operation", .obj [("_text", .str "equals")]),
                                ("value", .obj [("_text", .str "Tech")])])]

/-- Converted sharing-rules document whose `sharingCriteriaRules` element
occurred exactly once in the XML (so the compact conversion yields a plain
object, not an array). -/
def c6DocCriteriaSingle : Jso :=
  .obj [("SharingRules", .obj [("sharingCriteriaRules", c6SingleRule)])]

/-- the same document with the rule wrapped in a one-element array. -/
def c6DocCriteriaArray : Jso :=
  .obj [("SharingRules", .obj [("sharingCriteriaRules", .arr [c6SingleRule])])]

/-- Converted document whose `sharingOwnerRules` element occurred exactly once. -/
def c6DocOwnerSingle : Jso :=
  .obj [("SharingRules", .obj [("sharingOwnerRules", c6SingleRule)])]

/-- the same owner-rule document with the rule wrapped in a one-element array. -/
def c6DocOwnerArray : Jso :=
  .obj [("SharingRules", .obj [("sharingOwnerRules", .arr [c6SingleRule])])]

/-- Concrete lifecycle model whose `ready` flag is set (made ready via load). -/
def c7ReadyModel : SfdxFalconModel where
  trapErrors := false
  state := { built := false, loaded := true, failed := false, ready := true, stale := false }
  errors := []
  buildOpts := []
  loadOpts := []

/-- Concrete destination context already holding one UserTerritory2Association record. -/
def c7CtxUser : Tm2Context :=
  { Tm2Context.init with userTerritory2AssociationRecords := [[("Territory2Id", "0MI000X")]] }

/-- Concrete destination context already holding one ObjectTerritory2Association record. -/
def c7CtxObject : Tm2Context :=
  { Tm2Context.init with objectTerritory2AssociationRecords := [[("Territory2Id", "0MI000X")]] }

/-- Concrete prepared destination context for the spec's worked example:
rows `T1 → DevA` and `T2 → DevB` with `DevB.parent = DevA`. -/
def c3Context : Tm2Context :=
  Tm2Context.prepare
    [⟨"T1", "DevA", "", "", ""⟩, ⟨"T2", "DevB", "DevA", "", ""⟩] (.ok [])

/-- Concrete destination extract for the worked example:
`DevA → D001`, `DevB → D002`. -/
def c3Extract : List Territory2Record :=
  [⟨"D001", "DevA"⟩, ⟨"D002", "DevB"⟩]

end TmTools

namespace TmTools

theorem JsMap.get_set {α : Type} (m : JsMap α) (k k' : String) (v : α) :
    (m.set k v).get k' = if k' = k then some v else m.get k' := by
  induction m with
  | nil =>
    by_cases h : k' = k
    · subst h; simp [JsMap.set, JsMap.get]
    · simp [JsMap.set, JsMap.get, h, Ne.symm h]
  | cons p t ih =>
    simp only [JsMap.set]
    by_cases hp : p.1 = k
    · rw [if_pos hp]
      by_cases h : k' = k
      · subst h; simp [JsMap.get]
      · simp only [JsMap.get, if_neg h]
        rw [if_neg (fun hk : k = k' => h hk.symm),
            if_neg (fun hpk : p.1 = k' => h (hp.symm.trans hpk).symm)]
    · rw [if_neg hp]
      simp only [JsMap.get, ih]
      by_cases hpk : p.1 = k'
      · rw [if_pos hpk, if_neg (fun hk => hp (hpk.trans hk)), if_pos hpk]
      · rw [if_neg hpk, if_neg hpk]

/-- C1: after `updateRecordMaps` succeeds and the by-DeveloperName index
maps `DevB` to `D002`, `buildUserT2AssociationRecords` does *not* replace
the `T2ID_PENDING_DevB` placeholder in the row's `Territory2Id` reference
field: the resolved ID `D002` lands in a new lower-case `territory2Id`
field while the reference field read by the transform keeps the
`T2ID_PENDING_` placeholder (the assignment targets the wrong key). -/
theorem c1_transformed_row_retains_placeholder :
    c1Context.updated = true ∧
    (c1Context.territory2RecordsByDevName.get "DevB").map Territory2Record.Id = some "D002" ∧
    (c1Context.buildUserT2AssociationRecords [c1PendingRow]).2 = none ∧
    (c1Context.buildUserT2AssociationRecords [c1PendingRow]).1.userTerritory2AssociationRecords
      = [[("Territory2Id", "T2ID_PENDING_DevB"), ("territory2Id", "D002")]] ∧
    ((c1Context.buildUserT2AssociationRecords
        [c1PendingRow]).1.userTerritory2AssociationRecords.map
      (fun row => (row.get "Territory2Id").map (fun v => jsStartsWith v "T2ID_PENDING_")))
      = [some true] :=
  ⟨rfl, rfl, rfl, rfl, rfl⟩

/-- C2 (counterexample): `updateRecordMaps` against a two-row mapping table
(`DevA`, `DevB`) and an extract containing only `DevA → D001` fails with
`DeveloperNameNotFound`, yet leaves the first mapping row resolved to
`D001` while the second row stays unresolved — the in-memory mapping table
*is* half-updated by the failing call. -/
theorem c2_counterexample_partial_resolution :
    (c2Context.updateRecordMaps (.ok [⟨"D001", "DevA"⟩])).2 = some .developerNameNotFound ∧
    ((c2Context.updateRecordMaps (.ok [⟨"D001", "DevA"⟩])).1.territoryDevNameMappings.map
      (fun m => m.territory2Id)) = ["D001", ""] ∧
    (c2Context.updateRecordMaps (.ok [⟨"D001", "DevA"⟩])).1.updated = false :=
  ⟨rfl, rfl, rfl⟩

/-- C4: `refresh()` on a model that is not ready fails with the
`RefreshError` (NotReady) error; but on an instance made ready via
`load()`, `refresh()` does invoke the load implementation with the cached
load options and then — instead of returning the refreshed model state —
discards the hook's outcome, leaves the instance state untouched and
throws the placeholder `ERROR_NAME` error unconditionally. -/
theorem c4_refresh_after_load_throws_placeholder :
    ((SfdxFalconModel.construct none).refresh (fun _ => .ok true) (fun _ => .ok true)).err
      = some .refreshError ∧
    c4LoadedModel.state.loaded = true ∧
    c4LoadedModel.state.ready = true ∧
    (c4LoadedModel.refresh (fun _ => .ok true) (fun _ => .ok true)).invokedLoad
      = some [("path", "x")] ∧
    (c4LoadedModel.refresh (fun _ => .ok true) (fun _ => .ok true)).err = some .errorName ∧
    (c4LoadedModel.refresh (fun _ => .ok true) (fun _ => .ok true)).model = c4LoadedModel :=
  ⟨rfl, rfl, rfl, rfl, rfl, rfl⟩

/-- C6: a sharing-rules document whose `sharingCriteriaRules` element holds
a single rule object (the compact conversion of a once-occurring element)
makes the whole parse fail with the runtime not-iterable TypeError — the
criteria branch's "normalization" is a no-op — whereas the same rule
wrapped in a one-element array parses to one filtered rule; the owner
branch, by contrast, normalizes a singleton correctly and yields the same
filtered result for both forms. -/
theorem c6_singleton_criteria_rule_breaks_parse :
    parseSharingRulesFromXml c6DocCriteriaSingle = .error .notIterable ∧
    (parseSharingRulesFromXml c6DocCriteriaArray).toOption.map
      (fun r => r.sharingCriteriaRules.length) = some 1 ∧
    (parseSharingRulesFromXml c6DocOwnerSingle).toOption.map (fun r => r.sharingOwnerRules)
      = (parseSharingRulesFromXml c6DocOwnerArray).toOption.map (fun r => r.sharingOwnerRules) ∧
    (parseSharingRulesFromXml c6DocOwnerSingle).toOption.map
      (fun r => r.sharingOwnerRules.length) = some 1 :=
  ⟨rfl, rfl, rfl, rfl⟩

/-- C7: calling `build()` or `load()` on a lifecycle instance whose `ready`
flag is already `true` fails with the `BuildError`/`LoadingError`
(AlreadyReady) error, and the association-record builders fail with the
`RecordBuildError` (AlreadyBuilt) error when association records already
exist; in all cases the instance is returned exactly as it was (no
additional mutation). -/
theorem c7_second_build_fails_without_mutation (m : SfdxFalconModel)
    (buildImpl loadImpl : JsMap String → Except Err Bool)
    (buildOptions loadOptions : Option (JsMap String))
    (hready : m.state.ready = true)
    (ctx : Tm2Context) (intermediateRows : List (JsMap String))
    (hrecords : ctx.userTerritory2AssociationRecords ≠ [])
    (ctx2 : Tm2Context) (hrecords2 : ctx2.objectTerritory2AssociationRecords ≠ []) :
    m.build buildImpl buildOptions = (m, some .buildError) ∧
    m.load loadImpl loadOptions = (m, some .loadingError) ∧
    ctx.buildUserT2AssociationRecords intermediateRows = (ctx, some .recordBuildError) ∧
    ctx2.buildObjectT2AssociationRecords = (ctx2, some .recordBuildError) := by
  refine ⟨?_, ?_, ?_, ?_⟩
  · simp [SfdxFalconModel.build, hready]
  · simp [SfdxFalconModel.load, hready]
  · simp [Tm2Context.buildUserT2AssociationRecords, List.length_eq_zero, hrecords]
  · simp [Tm2Context.buildObjectT2AssociationRecords, List.length_eq_zero, hrecords2]

/-- Witness for C7 at a concrete ready model and concrete contexts holding
one association record each. -/
theorem c7_second_build_fails_without_mutation_witness :
    c7ReadyModel.build (fun _ => .ok true) none = (c7ReadyModel, some .buildError) ∧
    c7ReadyModel.load (fun _ => .ok true) none = (c7ReadyModel, some .loadingError) ∧
    c7CtxUser.buildUserT2AssociationRecords [] = (c7CtxUser, some .recordBuildError) ∧
    c7CtxObject.buildObjectT2AssociationRecords = (c7CtxObject, some .recordBuildError) :=
  c7_second_build_fails_without_mutation c7ReadyModel (fun _ => .ok true) (fun _ => .ok true)
    none none rfl c7CtxUser [] (by decide) c7CtxObject (by decide)

/-- C9: the status flags of `Tm1Context.validate` are each exactly the
equality of the corresponding expected and freshly-parsed actual count (so
all five are `true` iff every count matches, and a mismatch in one kind
flips only that kind's flag), and the result carries the freshly parsed
records and the analysis snapshot through unchanged. -/
theorem c9_validate_status_iff_counts (tm1AnalysisReport : TM1RecordCounts)
    (freshlyParsed : Tm1ParsedRecords) :
    ((Tm1Context.validate tm1AnalysisReport freshlyParsed).status.territoryExtractionIsValid = true
      ↔ tm1AnalysisReport.territoryRecordCount = (freshlyParsed.territoryRecords.length : Int)) ∧
    ((Tm1Context.validate tm1AnalysisReport freshlyParsed).status.ataRuleExtractionIsValid = true
      ↔ tm1AnalysisReport.ataRuleRecordCount = (freshlyParsed.ataRuleRecords.length : Int)) ∧
    ((Tm1Context.validate tm1AnalysisReport freshlyParsed).status.ataRuleItemExtractionIsValid = true
      ↔ tm1AnalysisReport.ataRuleItemRecordCount = (freshlyParsed.ataRuleItemRecords.length : Int)) ∧
    ((Tm1Context.validate tm1AnalysisReport freshlyParsed).status.userTerritoryExtractionIsValid = true
      ↔ tm1AnalysisReport.userTerritoryRecordCount = (freshlyParsed.userTerritoryRecords.length : Int)) ∧
    ((Tm1Context.validate tm1AnalysisReport freshlyParsed).status.accountShareExtractionIsValid = true
      ↔ tm1AnalysisReport.accountShareRecordCount = (freshlyParsed.accountShareRecords.length : Int)) ∧
    ((Tm1Context.validate tm1AnalysisReport freshlyParsed).status
        = ⟨true, true, true, true, true⟩
      ↔ (tm1AnalysisReport.territoryRecordCount = (freshlyParsed.territoryRecords.length : Int) ∧
         tm1AnalysisReport.ataRuleRecordCount = (freshlyParsed.ataRuleRecords.length : Int) ∧
         tm1AnalysisReport.ataRuleItemRecordCount = (freshlyParsed.ataRuleItemRecords.length : Int) ∧
         tm1AnalysisReport.userTerritoryRecordCount = (freshlyParsed.userTerritoryRecords.length : Int) ∧
         tm1AnalysisReport.accountShareRecordCount = (freshlyParsed.accountShareRecords.length : Int))) ∧
    (Tm1Context.validate tm1AnalysisReport freshlyParsed).records = freshlyParsed ∧
    (Tm1Context.validate tm1AnalysisReport freshlyParsed).expectedRecordCounts = tm1AnalysisReport := by
  refine ⟨?_, ?_, ?_, ?_, ?_, ?_, rfl, rfl⟩ <;>
    simp [Tm1Context.validate, TM1ValidationStatus.mk.injEq]

/-- C10: every domain-data accessor of `Tm1Analysis` calls
`this.checkPrepared()`, but `checkPrepared` is commented out of the class,
so for every instance every such accessor raises the runtime TypeError
"`checkPrepared` is not a function" instead of returning the stored value
or a readiness error; meanwhile the constructor unconditionally sets the
`_prepared` flag to `true`. -/
theorem c10_tm1Analysis_accessors_raise_undefined_method_call :
    (∀ a : Tm1Analysis,
      a.getAccountShareRecordCount = .error (.undefinedIsNotAFunction "checkPrepared") ∧
      a.getAtaRuleRecordCount = .error (.undefinedIsNotAFunction "checkPrepared") ∧
      a.getAtaRuleItemRecordCount = .error (.undefinedIsNotAFunction "checkPrepared") ∧
      a.getHardTm1DependencyCount = .error (.undefinedIsNotAFunction "checkPrepared") ∧
      a.getSoftTm1DependencyCount = .error (.undefinedIsNotAFunction "checkPrepared") ∧
      a.getDateAnalyzed = .error (.undefinedIsNotAFunction "checkPrepared") ∧
      a.getOrgInfo = .error (.undefinedIsNotAFunction "checkPrepared") ∧
      a.getAliasOrUsername = .error (.undefinedIsNotAFunction "checkPrepared") ∧
      a.getAccountSharingRulesCount = .error (.undefinedIsNotAFunction "checkPrepared") ∧
      a.getLeadSharingRulesCount = .error (.undefinedIsNotAFunction "checkPrepared") ∧
      a.getOpportunitySharingRulesCount = .error (.undefinedIsNotAFunction "checkPrepared") ∧
      a.getGroupRecordCount = .error (.undefinedIsNotAFunction "checkPrepared") ∧
      a.getTerritoryRecordCount = .error (.undefinedIsNotAFunction "checkPrepared") ∧
      a.getUserTerritoryRecordCount = .error (.undefinedIsNotAFunction "checkPrepared")) ∧
    (∀ (aliasOrUsername : Option String) (defaultDelay : Option Int) (dateNow : String),
      (Tm1Analysis.construct aliasOrUsername defaultDelay dateNow).prepared = true) :=
  ⟨fun _ => ⟨rfl, rfl, rfl, rfl, rfl, rfl, rfl, rfl, rfl, rfl, rfl, rfl, rfl, rfl⟩,
   fun _ _ _ => rfl⟩

/-- C8: on a not-yet-ready model, a `build()`/`load()` whose hook succeeds
leaves exactly one of `built`/`loaded` true with `ready` true and
`failed`/`stale` false; a `build()`/`load()` whose hook does not succeed
(returns `false` or throws) sets `failed` and clears the other flags,
appends the wrapped error to the instance's error collection, and
propagates the error to the caller exactly when `trapErrors` was not set
at construction. -/
theorem c8_build_load_state_invariants (m : SfdxFalconModel)
    (buildImpl loadImpl : JsMap String → Except Err Bool) (opts : Option (JsMap String))
    (hready : m.state.ready = false) (hopts : opts ≠ some []) :
    (buildImpl (opts.getD []) = .ok true →
      (m.build buildImpl opts).1.state = ⟨true, false, false, true, false⟩ ∧
      (m.build buildImpl opts).2 = none) ∧
    (buildImpl (opts.getD []) ≠ .ok true →
      (m.build buildImpl opts).1.state = ⟨false, false, true, false, false⟩ ∧
      (m.build buildImpl opts).1.errors = m.errors ++ [Err.buildError] ∧
      ((m.build buildImpl opts).2 = none ↔ m.trapErrors = true)) ∧
    (loadImpl (opts.getD []) = .ok true →
      (m.load loadImpl opts).1.state = ⟨false, true, false, true, false⟩ ∧
      (m.load loadImpl opts).2 = none) ∧
    (loadImpl (opts.getD []) ≠ .ok true →
      (m.load loadImpl opts).1.state = ⟨false, false, true, false, false⟩ ∧
      (m.load loadImpl opts).1.errors = m.errors ++ [Err.loadingError] ∧
      ((m.load loadImpl opts).2 = none ↔ m.trapErrors = true)) := by
  refine ⟨?_, ?_, ?_, ?_⟩
  · intro hb
    simp [SfdxFalconModel.build, hready, hopts, hb]
  · intro hb
    cases hres : buildImpl (opts.getD []) with
    | ok b =>
      cases b with
      | true => exact absurd hres hb
      | false =>
        by_cases ht : m.trapErrors = true <;>
          simp [SfdxFalconModel.build, hready, hopts, hres, ht]
    | error e =>
      by_cases ht : m.trapErrors = true <;>
        simp [SfdxFalconModel.build, hready, hopts, hres, ht]
  · intro hl
    simp [SfdxFalconModel.load, hready, hopts, hl]
  · intro hl
    cases hres : loadImpl (opts.getD []) with
    | ok b =>
      cases b with
      | true => exact absurd hres hl
      | false =>
        by_cases ht : m.trapErrors = true <;>
          simp [SfdxFalconModel.load, hready, hopts, hres, ht]
    | error e =>
      by_cases ht : m.trapErrors = true <;>
        simp [SfdxFalconModel.load, hready, hopts, hres, ht]

/-- Witness for C8 on a freshly constructed model: a successful build yields
the built/ready state, and a failing load on a non-trapping instance
propagates its error. -/
theorem c8_build_load_state_invariants_witness :
    (((SfdxFalconModel.construct none).build (fun _ => .ok true) none).1.state
      = ⟨true, false, false, true, false⟩) ∧
    ((((SfdxFalconModel.construct none).load (fun _ => .ok false) none).2 = none
      ↔ (SfdxFalconModel.construct none).trapErrors = true)) := by
  have h := c8_build_load_state_invariants (SfdxFalconModel.construct none)
    (fun _ => .ok true) (fun _ => .ok false) none rfl (by simp)
  exact ⟨(h.1 rfl).1, (h.2.2.2 (by simp)).2.2⟩



@[simp] theorem updated_buildT2RecordsByDevNameMap (ctx : Tm2Context) :
    ctx.buildT2RecordsByDevNameMap.updated = ctx.updated := rfl

@[simp] theorem updated_buildT2RecordsByIdMap (ctx : Tm2Context) :
    ctx.buildT2RecordsByIdMap.updated = ctx.updated := rfl

@[simp] theorem updated_buildTerritoryDevNameMapByT2Id (ctx : Tm2Context) :
    ctx.buildTerritoryDevNameMapByT2Id.updated = ctx.updated := rfl

@[simp] theorem mappings_buildT2RecordsByDevNameMap (ctx : Tm2Context) :
    ctx.buildT2RecordsByDevNameMap.territoryDevNameMappings = ctx.territoryDevNameMappings := rfl

@[simp] theorem mappings_buildT2RecordsByIdMap (ctx : Tm2Context) :
    ctx.buildT2RecordsByIdMap.territoryDevNameMappings = ctx.territoryDevNameMappings := rfl

@[simp] theorem mappings_buildTerritoryDevNameMapByT2Id (ctx : Tm2Context) :
    ctx.buildTerritoryDevNameMapByT2Id.territoryDevNameMappings = ctx.territoryDevNameMappings := rfl

@[simp] theorem byDevName_buildT2RecordsByIdMap (ctx : Tm2Context) :
    ctx.buildT2RecordsByIdMap.territory2RecordsByDevName = ctx.territory2RecordsByDevName := rfl

theorem byDevName_buildT2RecordsByDevNameMap (ctx : Tm2Context) :
    ctx.buildT2RecordsByDevNameMap.territory2RecordsByDevName
      = ctx.territory2Records.foldl
          (fun m r => m.set r.DeveloperName r) ctx.territory2RecordsByDevName := rfl

theorem lookupTerritory2Id_error_name (ctx : Tm2Context) (d : String) (hd : d ≠ "") (e : Err)
    (h : ctx.lookupTerritory2Id d = .error e) : e = .developerNameNotFound := by
  rw [Tm2Context.lookupTerritory2Id, if_neg hd] at h
  cases hg : ctx.territory2RecordsByDevName.get d with
  | none => rw [hg] at h; exact (Except.error.injEq _ _).mp h.symm
  | some r => rw [hg] at h; exact absurd h (by simp)

theorem resolveMappingsLoop_err_devname (ctx : Tm2Context) (ms : List TerritoryDevNameMapping)
    (hnames : ∀ m ∈ ms, m.territory2DevName ≠ "") :
    ∀ e, (ctx.resolveMappingsLoop ms).2 = some e → e = .developerNameNotFound := by
  induction ms with
  | nil => intro e he; simp [Tm2Context.resolveMappingsLoop] at he
  | cons m rest ih =>
    intro e he
    have hm : m.territory2DevName ≠ "" := hnames m (List.mem_cons_self _ _)
    have hrest : ∀ x ∈ rest, x.territory2DevName ≠ "" :=
      fun x hx => hnames x (List.mem_cons_of_mem _ hx)
    simp only [Tm2Context.resolveMappingsLoop] at he
    cases hl : ctx.lookupTerritory2Id m.territory2DevName with
    | error e1 =>
      rw [hl] at he
      simp at he
      exact he ▸ lookupTerritory2Id_error_name ctx _ hm e1 hl
    | ok t2Id =>
      rw [hl] at he
      simp only at he
      by_cases hpar : m.territory2ParentDevName ≠ ""
      · rw [if_pos hpar] at he
        cases hl2 : ctx.lookupTerritory2Id m.territory2ParentDevName with
        | error e2 =>
          rw [hl2] at he
          simp at he
          exact he ▸ lookupTerritory2Id_error_name ctx _ hpar e2 hl2
        | ok p2Id =>
          rw [hl2] at he
          simp only at he
          exact ih hrest e he
      · rw [if_neg hpar] at he
        exact ih hrest e he


theorem updateRecordMaps_fail_not_updated (ctx : Tm2Context)
    (p : Except Err (List Territory2Record)) (hupd : ctx.updated = false)
    (hne : (ctx.updateRecordMaps p).2 ≠ none) :
    (ctx.updateRecordMaps p).1.updated = false := by
  cases p with
  | error e => simpa [Tm2Context.updateRecordMaps] using hupd
  | ok recs =>
    by_cases h0 : recs.length = 0
    · simpa [Tm2Context.updateRecordMaps, h0] using hupd
    · simp only [Tm2Context.updateRecordMaps, h0, if_false] at hne ⊢
      generalize hl : Tm2Context.resolveMappingsLoop
        (({ctx with territory2Records := recs} : Tm2Context).buildT2RecordsByDevNameMap.buildT2RecordsByIdMap)
        (({ctx with territory2Records := recs} : Tm2Context).buildT2RecordsByDevNameMap.buildT2RecordsByIdMap).territoryDevNameMappings
        = looped at hne ⊢
      obtain ⟨ms, err⟩ := looped
      cases err with
      | none => simp at hne
      | some e => simpa using hupd


/-- C2 (amended): `updateRecordMaps` fails with the `CsvFileEmpty`
(EmptyExtract) error on a zero-record extract, leaving the mapping table
untouched; a failing call never marks the context updated; and with
non-empty Developer Names, any failure on a non-empty extract is the
`DeveloperNameNotFound` error.  (Rows before the failing row do get
mutated; see the counterexample theorem.) -/
theorem c2_updateRecordMaps_amended (ctx : Tm2Context) (extract : List Territory2Record)
    (hupd : ctx.updated = false)
    (hnames : ∀ m ∈ ctx.territoryDevNameMappings, m.territory2DevName ≠ "") :
    (extract = [] →
      (ctx.updateRecordMaps (.ok extract)).2 = some .csvFileEmpty ∧
      (ctx.updateRecordMaps (.ok extract)).1.territoryDevNameMappings
        = ctx.territoryDevNameMappings ∧
      (ctx.updateRecordMaps (.ok extract)).1.updated = false) ∧
    ((ctx.updateRecordMaps (.ok extract)).2 ≠ none →
      (ctx.updateRecordMaps (.ok extract)).1.updated = false) ∧
    (∀ e, extract ≠ [] → (ctx.updateRecordMaps (.ok extract)).2 = some e →
      e = .developerNameNotFound) := by
  refine ⟨?_, fun hne => updateRecordMaps_fail_not_updated ctx _ hupd hne, ?_⟩
  · intro h; subst h
    exact ⟨rfl, rfl, hupd⟩
  · intro e hne he
    have h0 : ¬ extract.length = 0 := by simpa [List.length_eq_zero] using hne
    simp only [Tm2Context.updateRecordMaps, h0, if_false] at he
    generalize hl : Tm2Context.resolveMappingsLoop
        (({ctx with territory2Records := extract} :
            Tm2Context).buildT2RecordsByDevNameMap.buildT2RecordsByIdMap)
        (({ctx with territory2Records := extract} :
            Tm2Context).buildT2RecordsByDevNameMap.buildT2RecordsByIdMap).territoryDevNameMappings
        = looped at he
    obtain ⟨ms, err⟩ := looped
    cases err with
    | none => simp at he
    | some e2 =>
      have he2 : e2 = e := by simpa using he
      have hmaps : (({ctx with territory2Records := extract} :
          Tm2Context).buildT2RecordsByDevNameMap.buildT2RecordsByIdMap).territoryDevNameMappings
          = ctx.territoryDevNameMappings := rfl
      have hres := resolveMappingsLoop_err_devname
        (({ctx with territory2Records := extract} :
            Tm2Context).buildT2RecordsByDevNameMap.buildT2RecordsByIdMap)
        (({ctx with territory2Records := extract} :
            Tm2Context).buildT2RecordsByDevNameMap.buildT2RecordsByIdMap).territoryDevNameMappings
        (by rw [hmaps]; exact hnames) e2 (by rw [hl])
      exact he2 ▸ hres

/-- Witness for C2 (amended) on the concrete two-row context. -/
theorem c2_updateRecordMaps_amended_witness :
    (c2Context.updateRecordMaps (.ok [])).2 = some .csvFileEmpty ∧
    (c2Context.updateRecordMaps (.ok [⟨"D001", "DevA"⟩])).1.updated = false := by
  have h1 := c2_updateRecordMaps_amended c2Context [] rfl (by decide)
  have h2 := c2_updateRecordMaps_amended c2Context [⟨"D001", "DevA"⟩] rfl (by decide)
  exact ⟨(h1.1 rfl).1, h2.2.1 (by decide)⟩



theorem get_foldl_byDevName (recs : List Territory2Record) (m : JsMap Territory2Record)
    (k : String) :
    JsMap.get (recs.foldl (fun acc r => acc.set r.DeveloperName r) m) k
      = match lastRecordWithDevName recs k with
        | some r => some r
        | none => m.get k := by
  induction recs generalizing m with
  | nil => simp [lastRecordWithDevName]
  | cons r rest ih =>
    simp only [List.foldl_cons, lastRecordWithDevName]
    rw [ih]
    cases h : lastRecordWithDevName rest k with
    | some r2 => simp
    | none =>
      simp only
      rw [JsMap.get_set]
      by_cases hk : r.DeveloperName = k
      · rw [if_pos hk.symm, if_pos hk]
      · rw [if_neg (fun hkk : k = r.DeveloperName => hk hkk.symm), if_neg hk]

theorem lookupTerritory2Id_ok_of_get (ctx : Tm2Context) (d : String) (hd : d ≠ "")
    (r : Territory2Record) (hg : ctx.territory2RecordsByDevName.get d = some r) :
    ctx.lookupTerritory2Id d = .ok r.Id := by
  rw [Tm2Context.lookupTerritory2Id, if_neg hd, hg]

theorem resolveMappingsLoop_ok_of_resolvable (ctx : Tm2Context)
    (ms : List TerritoryDevNameMapping)
    (h : ∀ m ∈ ms, m.territory2DevName ≠ "" ∧
      (ctx.territory2RecordsByDevName.get m.territory2DevName).isSome ∧
      (m.territory2ParentDevName ≠ "" →
        (ctx.territory2RecordsByDevName.get m.territory2ParentDevName).isSome)) :
    ctx.resolveMappingsLoop ms =
      (ms.map (fun m =>
        { m with
          territory2Id :=
            match ctx.territory2RecordsByDevName.get m.territory2DevName with
            | some r => r.Id
            | none => m.territory2Id
          territory2ParentId :=
            if m.territory2ParentDevName ≠ "" then
              match ctx.territory2RecordsByDevName.get m.territory2ParentDevName with
              | some r => r.Id
              | none => m.territory2ParentId
            else m.territory2ParentId }), none) := by
  induction ms with
  | nil => simp [Tm2Context.resolveMappingsLoop]
  | cons m rest ih =>
    obtain ⟨hd, hs, hp⟩ := h m (List.mem_cons_self _ _)
    have hrest := fun x hx => h x (List.mem_cons_of_mem _ hx)
    obtain ⟨r, hr⟩ := Option.isSome_iff_exists.mp hs
    have hrw := lookupTerritory2Id_ok_of_get ctx _ hd r hr
    by_cases hpar : m.territory2ParentDevName = ""
    · simp [Tm2Context.resolveMappingsLoop, hrw, hr, hpar, ih hrest]
    · obtain ⟨rp, hrp⟩ := Option.isSome_iff_exists.mp (hp hpar)
      have hrw2 := lookupTerritory2Id_ok_of_get ctx _ hpar rp hrp
      simp [Tm2Context.resolveMappingsLoop, hrw, hrw2, hr, hrp, hpar, ih hrest]


/-- C3: when every mapping row's Developer Name (and parent Developer Name,
when present) occurs in the non-empty destination extract,
`updateRecordMaps` succeeds, marks the context updated, and sets every
row's destination identifier to the extract record ID indexed by the row's
Developer Name (and the parent identifier to the ID indexed by the parent
name). -/
theorem c3_updateRecordMaps_resolves_all (ctx : Tm2Context) (extract : List Territory2Record)
    (hne : extract ≠ [])
    (hrows : ∀ m ∈ ctx.territoryDevNameMappings,
      m.territory2DevName ≠ "" ∧
      (lastRecordWithDevName extract m.territory2DevName).isSome ∧
      (m.territory2ParentDevName ≠ "" →
        (lastRecordWithDevName extract m.territory2ParentDevName).isSome)) :
    (ctx.updateRecordMaps (.ok extract)).2 = none ∧
    (ctx.updateRecordMaps (.ok extract)).1.updated = true ∧
    (ctx.updateRecordMaps (.ok extract)).1.territoryDevNameMappings
      = ctx.territoryDevNameMappings.map (specResolvedRow extract) := by
  have h0 : ¬ extract.length = 0 := by simpa [List.length_eq_zero] using hne
  set ctxB := ({ctx with territory2Records := extract} :
      Tm2Context).buildT2RecordsByDevNameMap.buildT2RecordsByIdMap with hctxB
  have hmapsB : ctxB.territoryDevNameMappings = ctx.territoryDevNameMappings := rfl
  have hByDev : ∀ k, ctxB.territory2RecordsByDevName.get k
      = match lastRecordWithDevName extract k with
        | some r => some r
        | none => ctx.territory2RecordsByDevName.get k := by
    intro k
    have hfold : ctxB.territory2RecordsByDevName
        = extract.foldl (fun acc r => acc.set r.DeveloperName r)
            ctx.territory2RecordsByDevName := rfl
    rw [hfold, get_foldl_byDevName]
  have hres : ∀ m ∈ ctxB.territoryDevNameMappings,
      m.territory2DevName ≠ "" ∧
      (ctxB.territory2RecordsByDevName.get m.territory2DevName).isSome ∧
      (m.territory2ParentDevName ≠ "" →
        (ctxB.territory2RecordsByDevName.get m.territory2ParentDevName).isSome) := by
    intro m hm
    rw [hmapsB] at hm
    obtain ⟨hd, hs, hp⟩ := hrows m hm
    refine ⟨hd, ?_, ?_⟩
    · obtain ⟨r, hr⟩ := Option.isSome_iff_exists.mp hs
      rw [hByDev, hr]; rfl
    · intro hpar
      obtain ⟨rp, hrp⟩ := Option.isSome_iff_exists.mp (hp hpar)
      rw [hByDev, hrp]; rfl
  have hloop := resolveMappingsLoop_ok_of_resolvable ctxB ctxB.territoryDevNameMappings hres
  have hmapeq : ctxB.territoryDevNameMappings.map (fun m =>
      { m with
        territory2Id :=
          match ctxB.territory2RecordsByDevName.get m.territory2DevName with
          | some r => r.Id
          | none => m.territory2Id
        territory2ParentId :=
          if m.territory2ParentDevName ≠ "" then
            match ctxB.territory2RecordsByDevName.get m.territory2ParentDevName with
            | some r => r.Id
            | none => m.territory2ParentId
          else m.territory2ParentId })
      = ctx.territoryDevNameMappings.map (specResolvedRow extract) := by
    rw [hmapsB]
    refine List.map_congr_left ?_
    intro m hm
    obtain ⟨hd, hs, hp⟩ := hrows m hm
    obtain ⟨r, hr⟩ := Option.isSome_iff_exists.mp hs
    have hgr : ctxB.territory2RecordsByDevName.get m.territory2DevName = some r := by
      rw [hByDev, hr]
    by_cases hpar : m.territory2ParentDevName = ""
    · simp [specResolvedRow, extractIndexedId, hgr, hr, hpar]
    · obtain ⟨rp, hrp⟩ := Option.isSome_iff_exists.mp (hp hpar)
      have hgrp : ctxB.territory2RecordsByDevName.get m.territory2ParentDevName = some rp := by
        rw [hByDev, hrp]
      simp [specResolvedRow, extractIndexedId, hgr, hr, hgrp, hrp, hpar]
  refine ⟨?_, ?_, ?_⟩
  · simp only [Tm2Context.updateRecordMaps, h0, if_false]
    rw [← hctxB, hloop]
  · simp only [Tm2Context.updateRecordMaps, h0, if_false]
    rw [← hctxB, hloop]
  · simp only [Tm2Context.updateRecordMaps, h0, if_false]
    rw [← hctxB, hloop]
    simpa using hmapeq


/-- Witness for C3 on the spec's worked example: rows T1→DevA, T2→DevB with
DevB.parent = DevA, extract DevA→D001, DevB→D002. -/
theorem c3_updateRecordMaps_resolves_all_witness :
    (c3Context.updateRecordMaps (.ok c3Extract)).2 = none ∧
    (c3Context.updateRecordMaps (.ok c3Extract)).1.territoryDevNameMappings
      = c3Context.territoryDevNameMappings.map (specResolvedRow c3Extract) := by
  have h := c3_updateRecordMaps_resolves_all c3Context c3Extract (by decide) (by decide)
  exact ⟨h.1, h.2.2⟩

theorem matchAtaRuleDeveloperName_eq_false_iff (m : JsMap (List Char)) (n : List Char) :
    matchAtaRuleDeveloperName m n = false ↔ n ∉ m.values := by
  rw [← Bool.not_eq_true]
  simp [matchAtaRuleDeveloperName, List.any_eq_true]

theorem devNameCollisionLoop_not_mem (used : JsMap (List Char)) (base : List Char) :
    ∀ (fuel counter : Nat) (cand n : List Char),
      devNameCollisionLoop used base cand counter fuel = some n → n ∉ used.values := by
  intro fuel
  induction fuel with
  | zero => intro counter cand n h; simp [devNameCollisionLoop] at h
  | succ f ih =>
    intro counter cand n h
    rw [devNameCollisionLoop] at h
    by_cases hm : matchAtaRuleDeveloperName used cand = true
    · rw [if_pos hm] at h
      exact ih _ _ _ h
    · rw [if_neg hm] at h
      obtain rfl : cand = n := (Option.some.injEq _ _).mp h
      exact (matchAtaRuleDeveloperName_eq_false_iff used cand).mp (Bool.not_eq_true _ ▸ hm)

theorem devNameCollisionLoop_shape (used : JsMap (List Char)) (base : List Char) :
    ∀ (fuel counter : Nat) (cand n : List Char),
      devNameCollisionLoop used base cand counter fuel = some n →
      n = cand ∨ ∃ c, counter ≤ c ∧ c < counter + fuel ∧ n = suffixedDevName base c := by
  intro fuel
  induction fuel with
  | zero => intro counter cand n h; simp [devNameCollisionLoop] at h
  | succ f ih =>
    intro counter cand n h
    rw [devNameCollisionLoop] at h
    by_cases hm : matchAtaRuleDeveloperName used cand = true
    · rw [if_pos hm] at h
      rcases ih _ _ _ h with rfl | ⟨c, hc1, hc2, rfl⟩
      · exact Or.inr ⟨counter, Nat.le_refl _, by omega, rfl⟩
      · exact Or.inr ⟨c, by omega, by omega, rfl⟩
    · rw [if_neg hm] at h
      exact Or.inl ((Option.some.injEq _ _).mp h).symm

theorem suffixedDevName_length_le (base : List Char) (c : Nat)
    (hc : (Nat.repr c).length ≤ devNameMaxLength) :
    (suffixedDevName base c).length ≤ devNameMaxLength := by
  have hdata : (Nat.repr c).data.length = (Nat.repr c).length := rfl
  simp only [suffixedDevName, List.length_append, List.length_take, hdata]
  have hmin := Nat.min_le_left (devNameMaxLength - (Nat.repr c).length) base.length
  omega

theorem mem_values_set {α : Type} (m : JsMap α) (k : String) (v x : α)
    (hx : x ∈ (m.set k v).values) : x = v ∨ x ∈ m.values := by
  induction m with
  | nil =>
    simp [JsMap.set, JsMap.values] at hx
    exact Or.inl hx
  | cons p t ih =>
    simp only [JsMap.set] at hx
    by_cases hp : p.1 = k
    · rw [if_pos hp] at hx
      simp only [JsMap.values, List.map_cons, List.mem_cons] at hx ⊢
      rcases hx with rfl | hx
      · exact Or.inl rfl
      · exact Or.inr (Or.inr hx)
    · rw [if_neg hp] at hx
      simp only [JsMap.values, List.map_cons, List.mem_cons] at hx ⊢
      rcases hx with rfl | hx
      · exact Or.inr (Or.inl rfl)
      · rcases ih hx with h | h
        · exact Or.inl h
        · exact Or.inr (Or.inr h)

theorem values_set_nodup {α : Type} (m : JsMap α) (k : String) (v : α)
    (hv : v ∉ m.values) (hm : m.values.Nodup) : ((m.set k v).values).Nodup := by
  induction m with
  | nil => simp [JsMap.set, JsMap.values]
  | cons p t ih =>
    simp only [JsMap.values, List.map_cons, List.mem_cons, not_or] at hv
    simp only [JsMap.values, List.map_cons, List.nodup_cons] at hm
    simp only [JsMap.set]
    by_cases hp : p.1 = k
    · rw [if_pos hp]
      simp only [JsMap.values, List.map_cons, List.nodup_cons]
      exact ⟨hv.2, hm.2⟩
    · rw [if_neg hp]
      simp only [JsMap.values, List.map_cons, List.nodup_cons]
      refine ⟨?_, ih hv.2 hm.2⟩
      intro hmem
      rcases mem_values_set t k v p.2 hmem with h | h
      · exact hv.1 h.symm
      · exact hm.1 h

theorem addAtaRuleDeveloperName_inv (slug : String → List Char)
    (hs : ∀ s, (slug s).length ≤ devNameMaxLength) (fuel : Nat)
    (hfuel : 2 + fuel ≤ 10 ^ devNameMaxLength)
    (m m2 : JsMap (List Char)) (rule : AtaRuleRecord)
    (hm1 : m.values.Nodup) (hm2 : ∀ n ∈ m.values, n.length ≤ devNameMaxLength)
    (h : addAtaRuleDeveloperName slug fuel m rule = some m2) :
    m2.values.Nodup ∧ ∀ n ∈ m2.values, n.length ≤ devNameMaxLength := by
  simp only [addAtaRuleDeveloperName] at h
  cases hl : devNameCollisionLoop m (slug rule.Name) (slug rule.Name) 2 fuel with
  | none => rw [hl] at h; exact absurd h (by simp)
  | some newName =>
    rw [hl] at h
    obtain rfl : m.set rule.Id newName = m2 := (Option.some.injEq _ _).mp h
    have hnm : newName ∉ m.values := devNameCollisionLoop_not_mem m _ fuel 2 _ _ hl
    have hlen : newName.length ≤ devNameMaxLength := by
      rcases devNameCollisionLoop_shape m _ fuel 2 _ _ hl with rfl | ⟨c, hc1, hc2, rfl⟩
      · exact hs rule.Name
      · refine suffixedDevName_length_le _ _ (Nat.repr_length c devNameMaxLength ?_ ?_)
        · simp [devNameMaxLength]
        · have : (10 : Nat) ^ devNameMaxLength ≥ 2 + fuel := hfuel
          omega
    refine ⟨values_set_nodup m _ _ hnm hm1, ?_⟩
    intro x hx
    rcases mem_values_set m _ _ x hx with rfl | hx2
    · exact hlen
    · exact hm2 x hx2

theorem addAtaRuleDeveloperNames_inv (slug : String → List Char)
    (hs : ∀ s, (slug s).length ≤ devNameMaxLength) (fuel : Nat)
    (hfuel : 2 + fuel ≤ 10 ^ devNameMaxLength) :
    ∀ (rules : List AtaRuleRecord) (m m2 : JsMap (List Char)),
      m.values.Nodup → (∀ n ∈ m.values, n.length ≤ devNameMaxLength) →
      addAtaRuleDeveloperNames slug fuel m rules = some m2 →
      m2.values.Nodup ∧ ∀ n ∈ m2.values, n.length ≤ devNameMaxLength := by
  intro rules
  induction rules with
  | nil =>
    intro m m2 h1 h2 h
    obtain rfl : m = m2 := (Option.some.injEq _ _).mp h
    exact ⟨h1, h2⟩
  | cons rule rest ih =>
    intro m m2 h1 h2 h
    simp only [addAtaRuleDeveloperNames] at h
    cases hstep : addAtaRuleDeveloperName slug fuel m rule with
    | none => rw [hstep] at h; exact absurd h (by simp)
    | some mN =>
      rw [hstep] at h
      obtain ⟨hn1, hn2⟩ := addAtaRuleDeveloperName_inv slug hs fuel hfuel m mN rule h1 h2 hstep
      exact ih mN m2 hn1 hn2 h


/-- C5: whenever the per-context DeveloperName assignment completes for a
sequence of AssignmentRule records, the derived names are pairwise distinct
and each at most 80 characters long; a rule whose slug is not yet taken
keeps the base name, and a rule whose base name collides receives the base
truncated to 80 minus the suffix length concatenated with the numeric
suffix, starting at 2 and incremented until no collision remains.  The
slug transform `createDeveloperName` (not present under `src/`) is
constrained by the spec's invariant that Developer Names are at most 80
characters; the unbounded `while` loop is run on fuel (one unit per
collision test). -/
theorem c5_developer_names_distinct_and_bounded (createDeveloperName : String → List Char)
    (hslug : ∀ s, (createDeveloperName s).length ≤ devNameMaxLength)
    (fuel : Nat) (hfuel : 2 + fuel ≤ 10 ^ devNameMaxLength)
    (rules : List AtaRuleRecord) (result : JsMap (List Char))
    (hrun : addAtaRuleDeveloperNames createDeveloperName fuel [] rules = some result) :
    result.values.Nodup ∧
    (∀ n ∈ result.values, n.length ≤ devNameMaxLength) ∧
    (∀ (used : JsMap (List Char)) (rule : AtaRuleRecord) (f : Nat),
      matchAtaRuleDeveloperName used (createDeveloperName rule.Name) = false →
      addAtaRuleDeveloperName createDeveloperName (f + 1) used rule
        = some (used.set rule.Id (createDeveloperName rule.Name))) ∧
    (∀ (used : JsMap (List Char)) (rule : AtaRuleRecord) (f : Nat),
      matchAtaRuleDeveloperName used (createDeveloperName rule.Name) = true →
      matchAtaRuleDeveloperName used
        (suffixedDevName (createDeveloperName rule.Name) 2) = false →
      addAtaRuleDeveloperName createDeveloperName (f + 2) used rule
        = some (used.set rule.Id
            (suffixedDevName (createDeveloperName rule.Name) 2))) := by
  obtain ⟨h1, h2⟩ := addAtaRuleDeveloperNames_inv createDeveloperName hslug fuel hfuel
    rules [] result (by simp [JsMap.values]) (by simp [JsMap.values]) hrun
  refine ⟨h1, h2, ?_, ?_⟩
  · intro used rule f hfree
    simp [addAtaRuleDeveloperName, devNameCollisionLoop, hfree]
  · intro used rule f hbase hsuffix
    have e2 : f + 2 = (f + 1) + 1 := rfl
    simp [addAtaRuleDeveloperName, e2, devNameCollisionLoop, hbase, hsuffix]

/-- Witness for C5: two rules both named "East Region" processed with the
80-character-truncating slug yield the names `East Region` and
`East Region2`, which are distinct. -/
theorem c5_developer_names_distinct_and_bounded_witness :
    (JsMap.values
      ([("01", "East Region".data), ("02", "East Region2".data)] :
        JsMap (List Char))).Nodup :=
  (c5_developer_names_distinct_and_bounded (fun s => s.data.take 80)
    (by intro s
        simp [devNameMaxLength, List.length_take])
    3 (by norm_num [devNameMaxLength])
    [⟨"01", "East Region", "TA"⟩, ⟨"02", "East Region", "TB"⟩]
    [("01", "East Region".data), ("02", "East Region2".data)] rfl).1

end TmTools
